import Mathlib

/-!
Shallow embedding of two components of this repository:

* cogs5e/gamelog/utils.py — the feature_flag decorator gating gamelog event
  handlers behind a remotely evaluated feature flag keyed by the linked
  external (D&D Beyond) account.
* ui/servsettings.py — the server settings menus, in particular the
  lookup-settings DM role selector and the randchar settings screen.

External collaborators (the chat gateway, the flag-evaluation client, the
document store, the d20 dice parser) are modelled as explicit function
parameters or input data, following the interface section of the spec.
Awaited follow-up messages are modelled as an input of type Option String
(none = asyncio.TimeoutError) or FollowUpMessage.
-/

/-! ### Python int() parsing -/

def pairsNoDoubleUnderscore : List Char → Bool
  | a :: b :: rest => (!(a == '_' && b == '_')) && pairsNoDoubleUnderscore (b :: rest)
  | _ => true

def pyDigitsOk (cs : List Char) : Bool :=
  (!cs.isEmpty) && (cs.head? != some '_') && (cs.getLast? != some '_')
    && cs.all (fun c => c.isDigit || c == '_') && pairsNoDoubleUnderscore cs

def natFromDigits (cs : List Char) : Nat :=
  cs.foldl (fun a c => a * 10 + (c.toNat - ('0').toNat)) 0

/-- Python str.strip(): drop leading and trailing whitespace. -/
def pyStripList (cs : List Char) : List Char :=
  ((cs.dropWhile Char.isWhitespace).reverse.dropWhile Char.isWhitespace).reverse

/-- Python str.lower(): per-character lowercasing. -/
def strLower (s : String) : String :=
  String.mk (s.toList.map Char.toLower)

/-- Python int(str) as used throughout servsettings.py: surrounding whitespace
is stripped, an optional sign and underscore digit grouping are allowed;
none models a raised ValueError. -/
def pyIntParse (s : String) : Option Int :=
  let cs := pyStripList s.toList
  let sd : Int × List Char :=
    match cs with
    | '-' :: rest => (-1, rest)
    | '+' :: rest => (1, rest)
    | _ => (1, cs)
  if pyDigitsOk sd.2 then
    some (sd.1 * (natFromDigits (sd.2.filter (fun c => c != '_')) : Int))
  else none

/-! ### Gamelog feature_flag decorator (cogs5e/gamelog/utils.py) -/

structure GameLogEventContext where
  event_user_id : String
  discord_user_id : Option Nat
  deriving DecidableEq

structure DDBUser where
  username : String
  deriving DecidableEq

/-- Outcome of one dispatch through a feature_flag-wrapped handler: either an
IgnoreEvent signal (modelled from the spec: ddb.gamelog.errors.IgnoreEvent is
not in this fragment; per spec section 7 it marks an ignorable event that is
dropped silently, distinct from a fatal error), or the inner handler's return
value, or an error propagated unchanged from the inner handler. -/
inductive HandlerOutcome (ε β : Type) where
  | ignoreEvent (msg : String)
  | innerOk (b : β)
  | innerErr (e : ε)

structure GateResult (γ ε β : Type) where
  outcome : HandlerOutcome ε β
  innerCalls : List γ

/-- cogs5e/gamelog/utils.py, feature_flag: the wrapped coroutine. get_ddb_user
is the already-resolved result of gctx.bot.ddb.get_ddb_user, variation models
gctx.bot.ldclient.variation_for_ddb_user (flag name, user, default False,
discord id); inner is the wrapped handler, and innerCalls records every
invocation of it together with the arguments passed. -/
def feature_flag {γ ε β : Type} (flag_name : String) (gctx : GameLogEventContext)
    (get_ddb_user : Option DDBUser)
    (variation : String → DDBUser → Bool → Option Nat → Bool)
    (inner : GameLogEventContext → γ → Except ε β) (arg : γ) :
    GateResult (GameLogEventContext × γ) ε β :=
  match get_ddb_user with
  | none =>
    ⟨HandlerOutcome.ignoreEvent
      (("User ") ++ gctx.event_user_id ++ (" has not connected their account")), []⟩
  | some user =>
    if variation flag_name user false gctx.discord_user_id = false then
      ⟨HandlerOutcome.ignoreEvent
        (("Feature flag ") ++ flag_name ++ (" is disabled for user ") ++ user.username), []⟩
    else
      match inner gctx arg with
      | Except.ok b => ⟨HandlerOutcome.innerOk b, [(gctx, arg)]⟩
      | Except.error e => ⟨HandlerOutcome.innerErr e, [(gctx, arg)]⟩

/-! ### Server settings data model (fields used by ui/servsettings.py) -/

inductive InlineRollingType where
  | disabled
  | reaction
  | enabled
  deriving DecidableEq

inductive RuleType where
  | gt
  | lt
  deriving DecidableEq

/-- Modelled from the spec: RandcharRule lives in utils/settings/guild.py,
outside this fragment. One entry is {comparison kind: greater-than|less-than,
required count, threshold value}. -/
structure RandcharRule where
  type : RuleType
  amount : Int
  value : Int
  deriving DecidableEq

/-- Modelled from the spec: RandcharRule construction coerces its count and
threshold from the follow-up text and rejects them when not numeric-parseable
(spec grammar table: N and value must be numeric-parseable; otherwise reject).
The raised validation error is a ValueError, caught by the menu action. -/
def mkRandcharRule (t : RuleType) (amount value : String) : Option RandcharRule := do
  let a ← pyIntParse amount
  let v ← pyIntParse value
  some ⟨t, a, v⟩

/-- Modelled from the spec: the ServerSettings document fields named in the
spec's data model section; only the fields read or written by
ui/servsettings.py are included. -/
structure ServerSettings where
  dm_roles : Option (List Int)
  lookup_dm_required : Bool
  lookup_pm_dm : Bool
  lookup_pm_result : Bool
  inline_enabled : InlineRollingType
  randchar_dice : String
  randchar_sets : Int
  randchar_num : Int
  randchar_straight : Bool
  randchar_stat_names : List String
  randchar_min : Option Int
  randchar_max : Option Int
  randchar_rules : List RandcharRule
  show_campaign_cta : Bool
  upenn_nlp_opt_in : Bool
  deriving DecidableEq

/-- ui/servsettings.py, the per-rule text inside get_over_under_desc and the
Remove Rule option labels. -/
def over_under_rule_str (rule : RandcharRule) : String :=
  toString rule.amount ++ (if rule.type = RuleType.gt then (" over ") else (" under "))
    ++ toString rule.value

/-- ui/servsettings.py, get_over_under_desc. -/
def get_over_under_desc (rules : List RandcharRule) : String :=
  if rules = [] then ("None")
  else ("At least ") ++ String.intercalate (", ") (rules.map over_under_rule_str)

/-! ### Randchar freeform actions (ui/servsettings.py, _RandcharSettingsUI)

Each action is modelled as a pure function from the current settings and the
awaited follow-up message (none = timeout) to a FreeformResult recording the
new settings, the triggering button's disabled state after the finally block,
how many times commit_settings ran, how many times refresh_content ran, and
whether the success branch (the try/except else clause) was reached. -/

structure FreeformResult where
  settings : ServerSettings
  buttonDisabled : Bool
  commits : Nat
  refreshes : Nat
  success : Bool
  deriving DecidableEq

/-- _RandcharSettingsUI.select_dice. dparse abstracts str(d20.parse(...)) of
the external d20 library: none models RollSyntaxError/ValueError, some t the
normalized dice string. -/
def select_dice (dparse : String → Option String) (s : ServerSettings)
    (input : Option String) : FreeformResult :=
  let core : ServerSettings × Nat × Bool :=
    match input with
    | none => (s, 0, false)
    | some content =>
      match dparse content with
      | none => (s, 0, false)
      | some dstr => ({ s with randchar_dice := dstr }, 1, true)
  { settings := core.1, buttonDisabled := false, commits := core.2.1,
    refreshes := 2, success := core.2.2 }

/-- _RandcharSettingsUI.select_sets. -/
def select_sets (s : ServerSettings) (input : Option String) : FreeformResult :=
  let core : ServerSettings × Nat × Bool :=
    match input with
    | none => (s, 0, false)
    | some content =>
      match pyIntParse content with
      | none => (s, 0, false)
      | some n =>
        if 1 ≤ n ∧ n ≤ 25 then ({ s with randchar_sets := n }, 1, true)
        else (s, 0, false)
  { settings := core.1, buttonDisabled := false, commits := core.2.1,
    refreshes := 2, success := core.2.2 }

/-- _RandcharSettingsUI.select_stats. After assigning randchar_num, the code
clears randchar_straight when the new count no longer matches the length of
randchar_stat_names; the stat-name list itself is not modified. -/
def select_stats (s : ServerSettings) (input : Option String) : FreeformResult :=
  let core : ServerSettings × Nat × Bool :=
    match input with
    | none => (s, 0, false)
    | some content =>
      match pyIntParse content with
      | none => (s, 0, false)
      | some n =>
        if 1 ≤ n ∧ n ≤ 10 then
          let s1 := { s with randchar_num := n }
          let s2 :=
            if s1.randchar_num ≠ (s1.randchar_stat_names.length : Int) then
              { s1 with randchar_straight := false }
            else s1
          (s2, 1, true)
        else (s, 0, false)
  { settings := core.1, buttonDisabled := false, commits := core.2.1,
    refreshes := 2, success := core.2.2 }

/-- _RandcharSettingsUI.select_minimum. -/
def select_minimum (s : ServerSettings) (input : Option String) : FreeformResult :=
  let core : ServerSettings × Nat × Bool :=
    match input with
    | none => (s, 0, false)
    | some content =>
      if strLower content = ("default") then ({ s with randchar_min := none }, 1, true)
      else
        match pyIntParse content with
        | none => (s, 0, false)
        | some n => ({ s with randchar_min := some n }, 1, true)
  { settings := core.1, buttonDisabled := false, commits := core.2.1,
    refreshes := 2, success := core.2.2 }

/-- _RandcharSettingsUI.select_maximum. -/
def select_maximum (s : ServerSettings) (input : Option String) : FreeformResult :=
  let core : ServerSettings × Nat × Bool :=
    match input with
    | none => (s, 0, false)
    | some content =>
      if strLower content = ("default") then ({ s with randchar_max := none }, 1, true)
      else
        match pyIntParse content with
        | none => (s, 0, false)
        | some n => ({ s with randchar_max := some n }, 1, true)
  { settings := core.1, buttonDisabled := false, commits := core.2.1,
    refreshes := 2, success := core.2.2 }

/-- Python one-character str.split as used by add_rule: content.split of a
single delimiter character, keeping empty segments. -/
def splitOnChar (c : Char) : List Char → List (List Char)
  | [] => [[]]
  | x :: xs =>
    match splitOnChar c xs with
    | [] => [[]]
    | y :: ys => if x = c then [] :: y :: ys else (x :: y) :: ys

/-- The try-block body of _RandcharSettingsUI.add_rule: returns the new rule
list, the number of commits, and whether the else (success) clause runs.
The two-element unpack of content.split raises ValueError unless the split
yields exactly two parts. -/
def add_rule_core (rules : List RandcharRule) (input : Option String) :
    List RandcharRule × Nat × Bool :=
  match input with
  | none => (rules, 0, false)
  | some content =>
    let cs := content.toList
    if '>' ∈ cs then
      match splitOnChar '>' cs with
      | [a, v] =>
        match mkRandcharRule RuleType.gt (String.mk a) (String.mk v) with
        | some rule => (rules ++ [rule], 1, true)
        | none => (rules, 0, false)
      | _ => (rules, 0, false)
    else if '<' ∈ cs then
      match splitOnChar '<' cs with
      | [a, v] =>
        match mkRandcharRule RuleType.lt (String.mk a) (String.mk v) with
        | some rule => (rules ++ [rule], 1, true)
        | none => (rules, 0, false)
      | _ => (rules, 0, false)
    else (rules, 0, false)

/-- _RandcharSettingsUI.add_rule at the settings level. The finally block
re-enables the button only if the rule list has fewer than 25 entries;
otherwise the button stays disabled (it was disabled on entry). -/
def add_rule (s : ServerSettings) (input : Option String) : FreeformResult :=
  let core := add_rule_core s.randchar_rules input
  { settings := { s with randchar_rules := core.1 },
    buttonDisabled := decide (25 ≤ core.1.length),
    commits := core.2.1, refreshes := 2, success := core.2.2 }

/-! ### Randchar screen component state (_RandcharSettingsUI UI invariant) -/

structure RandcharUIState where
  rules : List RandcharRule
  addDisabled : Bool
  removeDisabled : Bool
  removeOptions : List (String × String)
  deriving DecidableEq

/-- _RandcharSettingsUI._refresh_remove_rule_select: rebuilds the Remove Rule
options; when the list is empty it disables the remove select and returns
early without touching the Add Rule button; otherwise it enables the remove
select and sets the Add Rule button's disabled state from the rule count. -/
def refresh_remove_rule_select (st : RandcharUIState) : RandcharUIState :=
  if st.rules = [] then
    { st with removeOptions := [(("Empty"), ("Empty"))], removeDisabled := true }
  else
    { st with
      removeDisabled := false,
      addDisabled := decide (25 ≤ st.rules.length),
      removeOptions := st.rules.enum.map (fun p => (over_under_rule_str p.2, toString p.1)) }

/-- The finally block of _RandcharSettingsUI.add_rule applied to the component
state reached at the end of the try/except/else. -/
def add_rule_finally (st2 : RandcharUIState) : RandcharUIState :=
  { st2 with addDisabled := if st2.rules.length < 25 then false else st2.addDisabled }

/-- _RandcharSettingsUI.add_rule at the component level: the button is
disabled on entry; on success the new rule is appended and the remove select
refreshed; the finally block conditionally re-enables the button. -/
def add_rule_ui (st : RandcharUIState) (input : Option String) : RandcharUIState :=
  add_rule_finally
    (if (add_rule_core st.rules input).2.2 = true then
      refresh_remove_rule_select
        { st with addDisabled := true, rules := (add_rule_core st.rules input).1 }
    else { st with addDisabled := true })

/-- _RandcharSettingsUI.remove_rule: pops the selected index and refreshes the
remove select. -/
def remove_rule_ui (st : RandcharUIState) (i : Nat) : RandcharUIState :=
  refresh_remove_rule_select { st with rules := st.rules.eraseIdx i }

/-- Component states of the randchar screen reachable through the menu:
the menu is rendered (_before_send refreshes the remove select) before any
interaction; afterwards any number of re-renders, Add Rule presses (only
possible while the button is enabled) and Remove Rule selections (only
possible while the select is enabled, on a valid index) occur. -/
inductive RandcharReachable (s0 : RandcharUIState) : RandcharUIState → Prop where
  | init : RandcharReachable s0 (refresh_remove_rule_select s0)
  | render {st : RandcharUIState} : RandcharReachable s0 st →
      RandcharReachable s0 (refresh_remove_rule_select st)
  | add {st : RandcharUIState} (input : Option String) : RandcharReachable s0 st →
      st.addDisabled = false → RandcharReachable s0 (add_rule_ui st input)
  | remove {st : RandcharUIState} (i : Nat) : RandcharReachable s0 st →
      st.removeDisabled = false → i < st.rules.length →
      RandcharReachable s0 (remove_rule_ui st i)

/-! ### Lookup settings DM role selector (_LookupSettingsUI) -/

structure Role where
  id : Int
  name : String
  deriving DecidableEq

def TOO_MANY_ROLES_SENTINEL : String := "__special:too_many_roles"

structure SelectOption where
  label : String
  value : String
  isDefault : Bool
  deriving DecidableEq

structure DmRoleSelect where
  options : List SelectOption
  maxValues : Nat
  deriving DecidableEq

/-- _LookupSettingsUI._refresh_dm_role_select: with more than 25 guild roles a
single sentinel option is offered; otherwise every guild role becomes an
option (highest first), marked default when currently selected. -/
def refresh_dm_role_select (sel : DmRoleSelect) (guild_roles : List Role)
    (dm_roles : Option (List Int)) : DmRoleSelect :=
  if 25 < guild_roles.length then
    { sel with options :=
        [⟨("Whoa, this server has a lot of roles! Click here to select them."),
          TOO_MANY_ROLES_SENTINEL, false⟩] }
  else
    let opts := guild_roles.reverse.map (fun (r : Role) =>
      (⟨r.name, toString r.id,
        match dm_roles with
        | none => false
        | some l => decide (r.id ∈ l)⟩ : SelectOption))
    { options := opts, maxValues := opts.length }

/-- A follow-up message awaited by _text_select_dm_roles: timeout, or the
message content together with the ids of the roles it mentions. -/
inductive FollowUpMessage where
  | timeout
  | msg (content : String) (role_mention_ids : List Int)

def insertIdIfAbsent (x : Int) (l : List Int) : List Int :=
  if x ∈ l then l else l ++ [x]

/-- _LookupSettingsUI._text_select_dm_roles: returns the new DM role id list
(none = reset to default); on timeout or when no token resolves to a role it
returns the current settings.dm_roles unchanged. Tokens are the comma-split
pieces of the message, resolved by id first and by case-insensitive name
otherwise; mentioned roles are always included; ids are kept set-like. -/
def text_select_dm_roles (guild_roles : List Role) (current : Option (List Int))
    (input : FollowUpMessage) : Option (List Int) :=
  match input with
  | FollowUpMessage.timeout => current
  | FollowUpMessage.msg content mentions =>
    if content = ("reset") then none
    else
      let start := mentions.foldl (fun acc i => insertIdIfAbsent i acc) []
      let role_ids := ((splitOnChar ',' content.toList).map String.mk).foldl (fun acc stmt =>
        let clean := String.mk (pyStripList stmt.toList)
        let maybe_role :=
          match pyIntParse clean with
          | some rid => guild_roles.find? (fun (r : Role) => r.id == rid)
          | none => guild_roles.find? (fun (r : Role) => strLower r.name == strLower clean)
        match maybe_role with
        | some r => insertIdIfAbsent r.id acc
        | none => acc) start
      if role_ids = [] then current else some role_ids

/-- The normalization role_ids or None applied when storing the selection. -/
def orNoneRoleIds : Option (List Int) → Option (List Int)
  | some (a :: l) => some (a :: l)
  | _ => none

def listMapPyInt (vs : List String) : Option (List Int) :=
  vs.mapM pyIntParse

/-- _LookupSettingsUI.select_dm_roles: when exactly the sentinel is selected,
the freeform text flow supplies the role ids; otherwise the selected values
are coerced to ints (Except.error models an uncaught ValueError). The stored
list is normalized with or None, and the Bool reports whether the freeform
text flow was used. -/
def select_dm_roles (guild_roles : List Role) (s : ServerSettings)
    (values : List String) (text_input : FollowUpMessage) :
    Except String (ServerSettings × Bool) :=
  if values = [TOO_MANY_ROLES_SENTINEL] then
    let role_ids := text_select_dm_roles guild_roles s.dm_roles text_input
    Except.ok ({ s with dm_roles := orNoneRoleIds role_ids }, true)
  else
    match listMapPyInt values with
    | none => Except.error ("ValueError")
    | some ids => Except.ok ({ s with dm_roles := orNoneRoleIds (some ids) }, false)

/-! ### Sample data for concrete evaluations -/

def sampleSettings : ServerSettings :=
  { dm_roles := none, lookup_dm_required := true, lookup_pm_dm := false,
    lookup_pm_result := false, inline_enabled := InlineRollingType.disabled,
    randchar_dice := ("4d6kh3"), randchar_sets := 1, randchar_num := 6,
    randchar_straight := false, randchar_stat_names := [], randchar_min := none,
    randchar_max := none, randchar_rules := [], show_campaign_cta := true,
    upenn_nlp_opt_in := false }

def sampleSettings6 : ServerSettings :=
  { sampleSettings with
    randchar_straight := true,
    randchar_stat_names := [("STR"), ("DEX"), ("CON"), ("INT"), ("WIS"), ("CHA")] }

def sampleSettings24 : ServerSettings :=
  { sampleSettings with randchar_rules := List.replicate 24 ⟨RuleType.gt, 1, 15⟩ }

def roles26 : List Role :=
  (List.range 26).map (fun i => ⟨(i : Int), ("role") ++ toString i⟩)

/-! ### Helper lemmas -/

theorem splitOnChar_not_mem (c : Char) (l : List Char) (h : c ∉ l) :
    splitOnChar c l = [l] := by
  induction l with
  | nil => rfl
  | cons x xs ih =>
    have hx : ¬(x = c) := fun he => h (he ▸ List.mem_cons_self x xs)
    have hxs : c ∉ xs := fun hm => h (List.mem_cons_of_mem x hm)
    simp only [splitOnChar, ih hxs]
    simp [hx]

theorem splitOnChar_append (c : Char) (n v : List Char) (hn : c ∉ n) (hv : c ∉ v) :
    splitOnChar c (n ++ c :: v) = [n, v] := by
  induction n with
  | nil =>
    simp only [List.nil_append, splitOnChar, splitOnChar_not_mem c v hv]
    simp
  | cons x xs ih =>
    have hx : ¬(x = c) := fun he => hn (he ▸ List.mem_cons_self x xs)
    have hxs : c ∉ xs := fun hm => hn (List.mem_cons_of_mem x hm)
    simp only [List.cons_append, splitOnChar, List.append_eq]
    rw [ih hxs]
    simp [hx]

/-! ### Claim theorems -/

/-- C1: for every gamelog event handled through a feature_flag-wrapped
handler, if the event's user has no linked external account, or the named
feature flag evaluates to false for that account, the wrapped inner handler
is never invoked (zero recorded calls) and the event is dropped as an
ignorable event (an IgnoreEvent outcome), not reported as a fatal error. -/
theorem feature_flag_blocks_unlinked_or_off {γ ε β : Type}
    (flag_name : String) (gctx : GameLogEventContext) (u : Option DDBUser)
    (variation : String → DDBUser → Bool → Option Nat → Bool)
    (inner : GameLogEventContext → γ → Except ε β) (arg : γ)
    (h : u = none ∨ ∃ d, u = some d ∧ variation flag_name d false gctx.discord_user_id = false) :
    (feature_flag flag_name gctx u variation inner arg).innerCalls = [] ∧
    ∃ msg, (feature_flag flag_name gctx u variation inner arg).outcome
      = HandlerOutcome.ignoreEvent msg := by
  rcases h with h | ⟨d, hd, hoff⟩
  · subst h
    exact ⟨rfl, _, rfl⟩
  · subst hd
    simp only [feature_flag, hoff]
    exact ⟨rfl, _, rfl⟩

theorem feature_flag_blocks_unlinked_or_off_witness :
    (feature_flag (γ := Unit) (ε := Unit) (β := Unit) ("x") ⟨("u1"), none⟩ none
      (fun _ _ _ _ => false) (fun _ _ => Except.ok ()) ()).innerCalls = [] ∧
    ∃ msg, (feature_flag (γ := Unit) (ε := Unit) (β := Unit) ("x") ⟨("u1"), none⟩ none
      (fun _ _ _ _ => false) (fun _ _ => Except.ok ()) ()).outcome
      = HandlerOutcome.ignoreEvent msg :=
  feature_flag_blocks_unlinked_or_off ("x") ⟨("u1"), none⟩ none
    (fun _ _ _ _ => false) (fun _ _ => Except.ok ()) () (Or.inl rfl)

/-- C2: when the event's user has a linked account and the named feature flag
evaluates to true, the wrapper invokes the inner handler exactly once with
the original arguments and forwards its result or error unchanged. -/
theorem feature_flag_forwards_when_on {γ ε β : Type}
    (flag_name : String) (gctx : GameLogEventContext) (u : Option DDBUser)
    (variation : String → DDBUser → Bool → Option Nat → Bool)
    (inner : GameLogEventContext → γ → Except ε β) (arg : γ) (d : DDBUser)
    (hd : u = some d) (hon : variation flag_name d false gctx.discord_user_id = true) :
    (feature_flag flag_name gctx u variation inner arg).innerCalls = [(gctx, arg)] ∧
    ((∃ b, inner gctx arg = Except.ok b ∧
        (feature_flag flag_name gctx u variation inner arg).outcome = HandlerOutcome.innerOk b) ∨
     (∃ e, inner gctx arg = Except.error e ∧
        (feature_flag flag_name gctx u variation inner arg).outcome = HandlerOutcome.innerErr e)) := by
  subst hd
  simp only [feature_flag, hon]
  cases hcall : inner gctx arg with
  | ok b => exact ⟨rfl, Or.inl ⟨b, rfl, rfl⟩⟩
  | error e => exact ⟨rfl, Or.inr ⟨e, rfl, rfl⟩⟩

theorem feature_flag_forwards_when_on_witness :
    (feature_flag (γ := Unit) (ε := Unit) (β := Nat) ("x") ⟨("u1"), none⟩
      (some ⟨("alice")⟩) (fun _ _ _ _ => true)
      (fun _ _ => Except.ok 3) ()).innerCalls = [(⟨("u1"), none⟩, ())] ∧
    ((∃ b, (fun (_ : GameLogEventContext) (_ : Unit) => Except.ok (ε := Unit) (3 : Nat))
          ⟨("u1"), none⟩ () = Except.ok b ∧
        (feature_flag (γ := Unit) (ε := Unit) (β := Nat) ("x") ⟨("u1"), none⟩
          (some ⟨("alice")⟩) (fun _ _ _ _ => true)
          (fun _ _ => Except.ok 3) ()).outcome = HandlerOutcome.innerOk b) ∨
     (∃ e, (fun (_ : GameLogEventContext) (_ : Unit) => Except.ok (ε := Unit) (3 : Nat))
          ⟨("u1"), none⟩ () = Except.error e ∧
        (feature_flag (γ := Unit) (ε := Unit) (β := Nat) ("x") ⟨("u1"), none⟩
          (some ⟨("alice")⟩) (fun _ _ _ _ => true)
          (fun _ _ => Except.ok 3) ()).outcome = HandlerOutcome.innerErr e)) :=
  feature_flag_forwards_when_on ("x") ⟨("u1"), none⟩ (some ⟨("alice")⟩)
    (fun _ _ _ _ => true) (fun _ _ => Except.ok 3) () ⟨("alice")⟩ rfl rfl

theorem add_rule_core_gt (rules : List RandcharRule) (n v : List Char)
    (hn : '>' ∉ n) (hv : '>' ∉ v) :
    add_rule_core rules (some (String.mk (n ++ '>' :: v)))
      = (match mkRandcharRule RuleType.gt (String.mk n) (String.mk v) with
         | some rule => (rules ++ [rule], 1, true)
         | none => (rules, 0, false)) := by
  have ht : (String.mk (n ++ '>' :: v)).toList = n ++ '>' :: v := rfl
  have hmem : '>' ∈ n ++ '>' :: v := List.mem_append_right n (List.mem_cons_self _ _)
  simp only [add_rule_core, ht, if_pos hmem, splitOnChar_append '>' n v hn hv]

theorem add_rule_core_lt (rules : List RandcharRule) (n v : List Char)
    (hn : '>' ∉ n) (hv : '>' ∉ v) (hn2 : '<' ∉ n) (hv2 : '<' ∉ v) :
    add_rule_core rules (some (String.mk (n ++ '<' :: v)))
      = (match mkRandcharRule RuleType.lt (String.mk n) (String.mk v) with
         | some rule => (rules ++ [rule], 1, true)
         | none => (rules, 0, false)) := by
  have ht : (String.mk (n ++ '<' :: v)).toList = n ++ '<' :: v := rfl
  have hmemgt : '>' ∉ n ++ '<' :: v := by
    intro h
    rcases List.mem_append.mp h with h | h
    · exact hn h
    · rcases List.mem_cons.mp h with h | h
      · exact absurd h (by decide)
      · exact hv h
  have hmemlt : '<' ∈ n ++ '<' :: v := List.mem_append_right n (List.mem_cons_self _ _)
  simp only [add_rule_core, ht, if_neg hmemgt, if_pos hmemlt,
    splitOnChar_append '<' n v hn2 hv2]

theorem mkRandcharRule_none (t : RuleType) (a v : String)
    (h : pyIntParse a = none ∨ pyIntParse v = none) :
    mkRandcharRule t a v = none := by
  rcases h with h | h
  · simp [mkRandcharRule, h]
  · cases hpa : pyIntParse a <;> simp [mkRandcharRule, hpa, h]

/-- C3: for the add over/under rule action, input of the form N>value or
N<value (N and value free of the delimiter characters) is accepted exactly
when both N and value are numeric-parseable, in which case a rule with the
corresponding comparison kind, count N and threshold value is appended;
otherwise the rule list is unchanged. In particular input 2<10 appends the
rule {less-than, count 2, threshold 10}, displayed as At least 2 under 10. -/
theorem add_rule_over_under_grammar (s : ServerSettings) (n v : List Char) :
    (('>' ∉ n) → ('>' ∉ v) →
      ((∀ a b : Int, pyIntParse (String.mk n) = some a → pyIntParse (String.mk v) = some b →
        (add_rule s (some (String.mk (n ++ '>' :: v)))).success = true ∧
        (add_rule s (some (String.mk (n ++ '>' :: v)))).settings.randchar_rules
          = s.randchar_rules ++ [⟨RuleType.gt, a, b⟩]) ∧
      (pyIntParse (String.mk n) = none ∨ pyIntParse (String.mk v) = none →
        (add_rule s (some (String.mk (n ++ '>' :: v)))).success = false ∧
        (add_rule s (some (String.mk (n ++ '>' :: v)))).settings.randchar_rules
          = s.randchar_rules))) ∧
    (('>' ∉ n) → ('>' ∉ v) → ('<' ∉ n) → ('<' ∉ v) →
      ((∀ a b : Int, pyIntParse (String.mk n) = some a → pyIntParse (String.mk v) = some b →
        (add_rule s (some (String.mk (n ++ '<' :: v)))).success = true ∧
        (add_rule s (some (String.mk (n ++ '<' :: v)))).settings.randchar_rules
          = s.randchar_rules ++ [⟨RuleType.lt, a, b⟩]) ∧
      (pyIntParse (String.mk n) = none ∨ pyIntParse (String.mk v) = none →
        (add_rule s (some (String.mk (n ++ '<' :: v)))).success = false ∧
        (add_rule s (some (String.mk (n ++ '<' :: v)))).settings.randchar_rules
          = s.randchar_rules))) ∧
    (add_rule sampleSettings (some ("2<10"))).settings.randchar_rules
      = sampleSettings.randchar_rules ++ [⟨RuleType.lt, 2, 10⟩] ∧
    get_over_under_desc [⟨RuleType.lt, 2, 10⟩] = ("At least 2 under 10") := by
  refine ⟨fun hn hv => ⟨?_, ?_⟩, fun hn hv hn2 hv2 => ⟨?_, ?_⟩, by decide, by decide⟩
  · intro a b ha hb
    have hc : add_rule_core s.randchar_rules (some (String.mk (n ++ '>' :: v)))
        = (s.randchar_rules ++ [⟨RuleType.gt, a, b⟩], 1, true) := by
      rw [add_rule_core_gt s.randchar_rules n v hn hv]
      simp [mkRandcharRule, ha, hb]
    constructor
    · simp [add_rule, hc]
    · simp [add_rule, hc]
  · intro hnone
    have hc : add_rule_core s.randchar_rules (some (String.mk (n ++ '>' :: v)))
        = (s.randchar_rules, 0, false) := by
      rw [add_rule_core_gt s.randchar_rules n v hn hv,
        mkRandcharRule_none RuleType.gt (String.mk n) (String.mk v) hnone]
    constructor
    · simp [add_rule, hc]
    · simp [add_rule, hc]
  · intro a b ha hb
    have hc : add_rule_core s.randchar_rules (some (String.mk (n ++ '<' :: v)))
        = (s.randchar_rules ++ [⟨RuleType.lt, a, b⟩], 1, true) := by
      rw [add_rule_core_lt s.randchar_rules n v hn hv hn2 hv2]
      simp [mkRandcharRule, ha, hb]
    constructor
    · simp [add_rule, hc]
    · simp [add_rule, hc]
  · intro hnone
    have hc : add_rule_core s.randchar_rules (some (String.mk (n ++ '<' :: v)))
        = (s.randchar_rules, 0, false) := by
      rw [add_rule_core_lt s.randchar_rules n v hn hv hn2 hv2,
        mkRandcharRule_none RuleType.lt (String.mk n) (String.mk v) hnone]
    constructor
    · simp [add_rule, hc]
    · simp [add_rule, hc]

theorem add_rule_over_under_grammar_witness :
    (add_rule sampleSettings (some (String.mk (['2'] ++ '<' :: ['1', '0'])))).success = true ∧
    (add_rule sampleSettings (some (String.mk (['2'] ++ '<' :: ['1', '0'])))).settings.randchar_rules
      = sampleSettings.randchar_rules ++ [⟨RuleType.lt, 2, 10⟩] :=
  ((add_rule_over_under_grammar sampleSettings (['2']) (['1', '0'])).2.1
    (by decide) (by decide) (by decide) (by decide)).1 2 10 (by decide) (by decide)

/-- C4: the set-number-of-stats action accepts an integer input exactly when
it is between 1 and 10 inclusive; on acceptance the stat count is set to that
value, the stat-name list is left untouched, and the assign-stats-directly
flag is cleared exactly when the new count differs from the stat-name list
length; out-of-bound integers leave the settings unchanged. -/
theorem select_stats_bounds_and_straight (s : ServerSettings) (content : String) (n : Int)
    (hp : pyIntParse content = some n) :
    (1 ≤ n ∧ n ≤ 10 →
      (select_stats s (some content)).success = true ∧
      (select_stats s (some content)).settings.randchar_num = n ∧
      (select_stats s (some content)).settings.randchar_stat_names = s.randchar_stat_names ∧
      (select_stats s (some content)).settings.randchar_straight
        = (if n = (s.randchar_stat_names.length : Int) then s.randchar_straight else false)) ∧
    (¬(1 ≤ n ∧ n ≤ 10) →
      (select_stats s (some content)).success = false ∧
      (select_stats s (some content)).settings = s) := by
  constructor
  · intro hb
    simp only [select_stats, hp]
    rw [if_pos hb]
    by_cases he : n = (s.randchar_stat_names.length : Int)
    · simp [he]
    · simp [he]
  · intro hb
    simp only [select_stats, hp]
    rw [if_neg hb]
    exact ⟨rfl, rfl⟩

theorem select_stats_bounds_and_straight_witness :
    (select_stats sampleSettings6 (some ("4"))).success = true ∧
    (select_stats sampleSettings6 (some ("4"))).settings.randchar_num = 4 ∧
    (select_stats sampleSettings6 (some ("4"))).settings.randchar_stat_names
      = sampleSettings6.randchar_stat_names ∧
    (select_stats sampleSettings6 (some ("4"))).settings.randchar_straight = false := by
  have h := (select_stats_bounds_and_straight sampleSettings6 ("4") 4 (by decide)).1 (by decide)
  refine ⟨h.1, h.2.1, h.2.2.1, ?_⟩
  rw [h.2.2.2]
  decide

/-- C6: the set-number-of-sets action accepts an integer input exactly when
it is between 1 and 25 inclusive; on acceptance the number-of-sets field is
set to exactly that value and the settings document is persisted exactly
once; out-of-bound integers are rejected with no change and no persist. -/
theorem select_sets_updates_and_commits_once (s : ServerSettings) (content : String) (n : Int)
    (hp : pyIntParse content = some n) :
    (1 ≤ n ∧ n ≤ 25 →
      (select_sets s (some content)).success = true ∧
      (select_sets s (some content)).settings.randchar_sets = n ∧
      (select_sets s (some content)).commits = 1) ∧
    (¬(1 ≤ n ∧ n ≤ 25) →
      (select_sets s (some content)).success = false ∧
      (select_sets s (some content)).settings = s ∧
      (select_sets s (some content)).commits = 0) := by
  constructor
  · intro hb
    simp [select_sets, hp, hb]
  · intro hb
    simp [select_sets, hp, hb]

theorem select_sets_updates_and_commits_once_witness :
    (select_sets sampleSettings (some ("10"))).success = true ∧
    (select_sets sampleSettings (some ("10"))).settings.randchar_sets = 10 ∧
    (select_sets sampleSettings (some ("10"))).commits = 1 :=
  (select_sets_updates_and_commits_once sampleSettings ("10") 10 (by decide)).1 (by decide)

/-- C7 counterexample: the claim that only the literal token default clears
the bound, and that any other accepted input must be an integer, fails: the
code lowercases the content first, so the non-integer input DEFAULT, which is
not the literal token default, is also accepted and clears the minimum. -/
theorem select_minimum_default_token_counterexample :
    (select_minimum { sampleSettings with randchar_min := some 5 } (some ("DEFAULT"))).success
      = true ∧
    (select_minimum { sampleSettings with randchar_min := some 5 }
      (some ("DEFAULT"))).settings.randchar_min = none ∧
    ("DEFAULT" : String) ≠ ("default") ∧
    pyIntParse ("DEFAULT") = none := by
  refine ⟨by decide, by decide, by decide, by decide⟩

/-- C7 amended: a follow-up whose content lowercases to default clears the
corresponding bound to unset (so the literal token default clears it); for
any content that does not lowercase to default, the input is accepted exactly
when it parses as an integer, and on acceptance the bound is set to that
integer. -/
theorem select_min_max_default_amended (s : ServerSettings) (content : String) :
    (strLower content = ("default") →
      (select_minimum s (some content)).success = true ∧
      (select_minimum s (some content)).settings.randchar_min = none ∧
      (select_maximum s (some content)).success = true ∧
      (select_maximum s (some content)).settings.randchar_max = none) ∧
    (strLower content ≠ ("default") →
      (∀ n : Int, pyIntParse content = some n →
        (select_minimum s (some content)).success = true ∧
        (select_minimum s (some content)).settings.randchar_min = some n ∧
        (select_maximum s (some content)).success = true ∧
        (select_maximum s (some content)).settings.randchar_max = some n) ∧
      (pyIntParse content = none →
        (select_minimum s (some content)).success = false ∧
        (select_minimum s (some content)).settings = s ∧
        (select_maximum s (some content)).success = false ∧
        (select_maximum s (some content)).settings = s)) := by
  constructor
  · intro hd
    refine ⟨?_, ?_, ?_, ?_⟩ <;> simp [select_minimum, select_maximum, hd]
  · intro hd
    constructor
    · intro n hn
      refine ⟨?_, ?_, ?_, ?_⟩ <;> simp [select_minimum, select_maximum, hd, hn]
    · intro hn
      refine ⟨?_, ?_, ?_, ?_⟩ <;> simp [select_minimum, select_maximum, hd, hn]

theorem select_min_max_default_amended_witness :
    (select_minimum { sampleSettings with randchar_min := some 5 } (some ("default"))).success
      = true ∧
    (select_minimum { sampleSettings with randchar_min := some 5 }
      (some ("default"))).settings.randchar_min = none ∧
    (select_maximum { sampleSettings with randchar_min := some 5 } (some ("default"))).success
      = true ∧
    (select_maximum { sampleSettings with randchar_min := some 5 }
      (some ("default"))).settings.randchar_max = none :=
  (select_min_max_default_amended { sampleSettings with randchar_min := some 5 }
    ("default")).1 (by decide)

theorem add_rule_core_spec (rules : List RandcharRule) (input : Option String) :
    ((add_rule_core rules input).2.2 = false ∧ (add_rule_core rules input).1 = rules) ∨
    ((add_rule_core rules input).2.2 = true ∧
      (add_rule_core rules input).1.length = rules.length + 1) := by
  cases input with
  | none => exact Or.inl ⟨rfl, rfl⟩
  | some content =>
    simp only [add_rule_core]
    split
    · split
      · split
        · exact Or.inr ⟨rfl, by simp⟩
        · exact Or.inl ⟨rfl, rfl⟩
      · exact Or.inl ⟨rfl, rfl⟩
    · split
      · split
        · split
          · exact Or.inr ⟨rfl, by simp⟩
          · exact Or.inl ⟨rfl, rfl⟩
        · exact Or.inl ⟨rfl, rfl⟩
      · exact Or.inl ⟨rfl, rfl⟩

/-- C5 counterexample: the claim that the re-enable step runs on every exit
path including success fails for the add over/under rule action: starting
from 24 rules, a successful add fills the list to 25 and the finally block
leaves the triggering button disabled. -/
theorem freeform_cleanup_counterexample :
    (add_rule sampleSettings24 (some ("1>15"))).success = true ∧
    (add_rule sampleSettings24 (some ("1>15"))).buttonDisabled = true ∧
    sampleSettings24.randchar_rules.length = 24 := by
  refine ⟨by decide, by decide, by decide⟩

/-- C5 amended: for every collect-freeform-value action, a malformed,
out-of-bound or timed-out follow-up leaves the settings unchanged; the
cleanup and re-render step runs unconditionally on every exit path (the
final refresh always runs), and the triggering control ends re-enabled
unconditionally for all the actions except add-rule, whose control ends
disabled exactly when the resulting rule list has 25 or more entries (in
particular it is re-enabled after any failure from fewer than 25 rules). -/
theorem freeform_cleanup_amended (s : ServerSettings) (dparse : String → Option String)
    (input : Option String) :
    ((select_dice dparse s input).success = false → (select_dice dparse s input).settings = s) ∧
    (select_dice dparse s input).buttonDisabled = false ∧
    (select_dice dparse s input).refreshes = 2 ∧
    ((select_sets s input).success = false → (select_sets s input).settings = s) ∧
    (select_sets s input).buttonDisabled = false ∧
    (select_sets s input).refreshes = 2 ∧
    ((select_stats s input).success = false → (select_stats s input).settings = s) ∧
    (select_stats s input).buttonDisabled = false ∧
    (select_stats s input).refreshes = 2 ∧
    ((select_minimum s input).success = false → (select_minimum s input).settings = s) ∧
    (select_minimum s input).buttonDisabled = false ∧
    (select_minimum s input).refreshes = 2 ∧
    ((select_maximum s input).success = false → (select_maximum s input).settings = s) ∧
    (select_maximum s input).buttonDisabled = false ∧
    (select_maximum s input).refreshes = 2 ∧
    ((add_rule s input).success = false → (add_rule s input).settings = s) ∧
    (add_rule s input).buttonDisabled
      = decide (25 ≤ (add_rule s input).settings.randchar_rules.length) ∧
    (add_rule s input).refreshes = 2 ∧
    (s.randchar_rules.length < 25 → (add_rule s input).success = false →
      (add_rule s input).buttonDisabled = false) := by
  have hdice : (select_dice dparse s input).success = false →
      (select_dice dparse s input).settings = s := by
    cases input with
    | none => intro _; rfl
    | some content =>
      cases hd : dparse content with
      | none => intro _; simp [select_dice, hd]
      | some d => intro hfail; simp [select_dice, hd] at hfail
  have hsets : (select_sets s input).success = false →
      (select_sets s input).settings = s := by
    cases input with
    | none => intro _; rfl
    | some content =>
      cases hp : pyIntParse content with
      | none => intro _; simp [select_sets, hp]
      | some n =>
        by_cases hb : 1 ≤ n ∧ n ≤ 25
        · intro hfail
          simp only [select_sets, hp] at hfail
          rw [if_pos hb] at hfail
          simp at hfail
        · intro _
          simp only [select_sets, hp]
          rw [if_neg hb]
  have hstats : (select_stats s input).success = false →
      (select_stats s input).settings = s := by
    cases input with
    | none => intro _; rfl
    | some content =>
      cases hp : pyIntParse content with
      | none => intro _; simp [select_stats, hp]
      | some n =>
        by_cases hb : 1 ≤ n ∧ n ≤ 10
        · intro hfail
          simp only [select_stats, hp] at hfail
          rw [if_pos hb] at hfail
          simp at hfail
        · intro _
          simp only [select_stats, hp]
          rw [if_neg hb]
  have hmin : (select_minimum s input).success = false →
      (select_minimum s input).settings = s := by
    cases input with
    | none => intro _; rfl
    | some content =>
      by_cases hd : strLower content = ("default")
      · intro hfail; simp [select_minimum, hd] at hfail
      · cases hp : pyIntParse content with
        | none => intro _; simp [select_minimum, hd, hp]
        | some n => intro hfail; simp [select_minimum, hd, hp] at hfail
  have hmax : (select_maximum s input).success = false →
      (select_maximum s input).settings = s := by
    cases input with
    | none => intro _; rfl
    | some content =>
      by_cases hd : strLower content = ("default")
      · intro hfail; simp [select_maximum, hd] at hfail
      · cases hp : pyIntParse content with
        | none => intro _; simp [select_maximum, hd, hp]
        | some n => intro hfail; simp [select_maximum, hd, hp] at hfail
  have haddsettings : (add_rule s input).success = false → (add_rule s input).settings = s := by
    intro hfail
    rcases add_rule_core_spec s.randchar_rules input with ⟨_, h2⟩ | ⟨h1, _⟩
    · show { s with randchar_rules := (add_rule_core s.randchar_rules input).1 } = s
      rw [h2]
    · exact absurd (hfail.symm.trans h1) (by decide)
  have haddenable : s.randchar_rules.length < 25 → (add_rule s input).success = false →
      (add_rule s input).buttonDisabled = false := by
    intro hlt hfail
    rcases add_rule_core_spec s.randchar_rules input with ⟨_, h2⟩ | ⟨h1, _⟩
    · show decide (25 ≤ (add_rule_core s.randchar_rules input).1.length) = false
      rw [h2]
      simpa using hlt
    · exact absurd (hfail.symm.trans h1) (by decide)
  exact ⟨hdice, rfl, rfl, hsets, rfl, rfl, hstats, rfl, rfl, hmin, rfl, rfl,
    hmax, rfl, rfl, haddsettings, rfl, rfl, haddenable⟩

theorem freeform_cleanup_amended_witness :
    (select_dice (fun _ => none) sampleSettings none).settings = sampleSettings ∧
    (select_dice (fun _ => none) sampleSettings none).buttonDisabled = false ∧
    (select_sets sampleSettings none).settings = sampleSettings ∧
    (select_minimum sampleSettings none).settings = sampleSettings ∧
    (add_rule sampleSettings none).buttonDisabled = false ∧
    (add_rule sampleSettings none).refreshes = 2 := by
  obtain ⟨h1, h2, h3, h4, h5, h6, h7, h8, h9, h10, h11, h12, h13, h14, h15, h16, h17, h18,
    h19⟩ := freeform_cleanup_amended sampleSettings (fun _ => none) none
  exact ⟨h1 rfl, h2, h4 rfl, h10 rfl, h19 (by decide) rfl, h18⟩

/-- C8: when the guild has more than 25 roles, the DM-roles multi-select
presents only the sentinel option (no role options), and selecting it routes
the action through the freeform text-collection flow; with at most 25 roles,
every guild role is presented as an option with its name and id. -/
theorem dm_roles_select_limit (sel : DmRoleSelect) (guild_roles : List Role)
    (s : ServerSettings) :
    (25 < guild_roles.length →
      (refresh_dm_role_select sel guild_roles s.dm_roles).options
        = [⟨("Whoa, this server has a lot of roles! Click here to select them."),
            TOO_MANY_ROLES_SENTINEL, false⟩] ∧
      ∀ text_input, ∃ s2, select_dm_roles guild_roles s ([TOO_MANY_ROLES_SENTINEL]) text_input
        = Except.ok (s2, true)) ∧
    (guild_roles.length ≤ 25 →
      ∀ r ∈ guild_roles, ∃ opt ∈ (refresh_dm_role_select sel guild_roles s.dm_roles).options,
        opt.label = r.name ∧ opt.value = toString r.id) := by
  constructor
  · intro h
    constructor
    · simp [refresh_dm_role_select, h]
    · intro text_input
      refine ⟨{ s with
        dm_roles := orNoneRoleIds (text_select_dm_roles guild_roles s.dm_roles text_input) }, ?_⟩
      unfold select_dm_roles
      rw [if_pos rfl]
  · intro h r hr
    have hn : ¬(25 < guild_roles.length) := not_lt.mpr h
    simp only [refresh_dm_role_select, if_neg hn]
    exact ⟨_, List.mem_map_of_mem _ (List.mem_reverse.mpr hr), rfl, rfl⟩

theorem dm_roles_select_limit_witness :
    (refresh_dm_role_select ⟨[], 0⟩ roles26 sampleSettings.dm_roles).options
      = [⟨("Whoa, this server has a lot of roles! Click here to select them."),
          TOO_MANY_ROLES_SENTINEL, false⟩] ∧
    (∃ s2, select_dm_roles roles26 sampleSettings ([TOO_MANY_ROLES_SENTINEL])
        FollowUpMessage.timeout = Except.ok (s2, true)) ∧
    (∃ opt ∈ (refresh_dm_role_select ⟨[], 0⟩ [⟨(1 : Int), ("DM")⟩]
        sampleSettings.dm_roles).options,
      opt.label = ("DM") ∧ opt.value = toString (1 : Int)) := by
  have hbig := (dm_roles_select_limit ⟨[], 0⟩ roles26 sampleSettings).1 (by decide)
  have hsmall := (dm_roles_select_limit ⟨[], 0⟩ [⟨(1 : Int), ("DM")⟩] sampleSettings).2
    (by decide) ⟨(1 : Int), ("DM")⟩ (by simp)
  exact ⟨hbig.1, hbig.2 FollowUpMessage.timeout, hsmall⟩

/-- C9: after any DM-roles action that completes (multi-select or freeform
text collection, including reset, failure and timeout outcomes), the stored
DM-role-id list is never the empty list: it is either unset (none) or
non-empty, because an empty selection is normalized to unset. -/
theorem dm_roles_never_empty_list (guild_roles : List Role) (s : ServerSettings)
    (values : List String) (text_input : FollowUpMessage) (s2 : ServerSettings) (used : Bool)
    (h : select_dm_roles guild_roles s values text_input = Except.ok (s2, used)) :
    ∀ l, s2.dm_roles = some l → l ≠ [] := by
  have hne : ∀ o : Option (List Int), orNoneRoleIds o ≠ some [] := by
    intro o
    rcases o with _ | (_ | ⟨a, l⟩)
    · simp [orNoneRoleIds]
    · simp [orNoneRoleIds]
    · simp [orNoneRoleIds]
  intro l hl hnil
  subst hnil
  unfold select_dm_roles at h
  split at h
  · simp only [Except.ok.injEq, Prod.mk.injEq] at h
    obtain ⟨h1, _⟩ := h
    rw [← h1] at hl
    exact hne _ hl
  · split at h
    · exact Except.noConfusion h
    · simp only [Except.ok.injEq, Prod.mk.injEq] at h
      obtain ⟨h1, _⟩ := h
      rw [← h1] at hl
      exact hne _ hl

theorem dm_roles_never_empty_list_witness :
    ({ sampleSettings with dm_roles := some ([5]) } : ServerSettings).dm_roles ≠ some ([]) :=
  fun hEq => (dm_roles_never_empty_list [] sampleSettings ([("5")]) FollowUpMessage.timeout
    { sampleSettings with dm_roles := some ([5]) } false rfl [] hEq) rfl

theorem refresh_remove_rules (st : RandcharUIState) :
    (refresh_remove_rule_select st).rules = st.rules := by
  unfold refresh_remove_rule_select
  split <;> rfl

theorem refresh_remove_addDisabled (st : RandcharUIState) :
    (refresh_remove_rule_select st).addDisabled
      = if st.rules = [] then st.addDisabled else decide (25 ≤ st.rules.length) := by
  unfold refresh_remove_rule_select
  split <;> rfl

theorem refresh_remove_inv (st : RandcharUIState)
    (h : st.rules = [] → st.addDisabled = false) :
    (refresh_remove_rule_select st).addDisabled
      = decide (25 ≤ (refresh_remove_rule_select st).rules.length) := by
  rw [refresh_remove_addDisabled, refresh_remove_rules]
  split
  next he =>
    rw [h he, he]
    decide
  next he => rfl

theorem add_rule_ui_inv (st : RandcharUIState) (input : Option String)
    (hlt : st.rules.length < 25) :
    (add_rule_ui st input).addDisabled
        = decide (25 ≤ (add_rule_ui st input).rules.length) ∧
    (add_rule_ui st input).rules.length ≤ 25 := by
  rcases add_rule_core_spec st.rules input with ⟨h1, h2⟩ | ⟨h1, h2⟩
  · have hcond : ¬((add_rule_core st.rules input).2.2 = true) := by
      rw [h1]
      decide
    unfold add_rule_ui add_rule_finally
    rw [if_neg hcond]
    constructor
    · show (if st.rules.length < 25 then false else true) = decide (25 ≤ st.rules.length)
      rw [if_pos hlt]
      exact (decide_eq_false (Nat.not_le.mpr hlt)).symm
    · show st.rules.length ≤ 25
      exact Nat.le_of_lt hlt
  · unfold add_rule_ui add_rule_finally
    rw [if_pos h1]
    set Y := refresh_remove_rule_select
      { st with addDisabled := true, rules := (add_rule_core st.rules input).1 } with hY
    have hr : Y.rules = (add_rule_core st.rules input).1 := refresh_remove_rules _
    have hne : (add_rule_core st.rules input).1 ≠ [] := by
      intro hnil
      rw [hnil] at h2
      exact absurd h2.symm (by simp)
    have hd : Y.addDisabled = decide (25 ≤ (add_rule_core st.rules input).1.length) := by
      rw [hY, refresh_remove_addDisabled]
      show (if (add_rule_core st.rules input).1 = [] then true
          else decide (25 ≤ (add_rule_core st.rules input).1.length)) = _
      rw [if_neg hne]
    constructor
    · show (if Y.rules.length < 25 then false else Y.addDisabled)
          = decide (25 ≤ Y.rules.length)
      rw [hr, hd, h2]
      by_cases hc : st.rules.length + 1 < 25
      · rw [if_pos hc]
        exact (decide_eq_false (Nat.not_le.mpr hc)).symm
      · rw [if_neg hc]
    · show Y.rules.length ≤ 25
      rw [hr, h2]
      omega

/-- C10: in every component state of the randchar screen reachable through
renders, Add Rule presses and Remove Rule selections (starting from a freshly
constructed screen, whose buttons are enabled, followed by the initial
render), the Add Rule control is disabled exactly when the rule list has 25
or more entries, and the rule list never grows beyond max(initial, 25): a new
rule can only be added while the list has fewer than 25 entries. -/
theorem randchar_add_rule_invariant (s0 st : RandcharUIState) (h0 : s0.addDisabled = false)
    (h : RandcharReachable s0 st) :
    st.addDisabled = decide (25 ≤ st.rules.length) ∧
    st.rules.length ≤ max s0.rules.length 25 := by
  induction h with
  | init =>
    refine ⟨refresh_remove_inv s0 (fun _ => h0), ?_⟩
    rw [refresh_remove_rules]
    exact le_max_left _ _
  | @render st hr ih =>
    obtain ⟨ih1, ih2⟩ := ih
    refine ⟨refresh_remove_inv st ?_, ?_⟩
    · intro he
      rw [ih1, he]
      decide
    · rw [refresh_remove_rules]
      exact ih2
  | @add st input hr hdis ih =>
    obtain ⟨ih1, ih2⟩ := ih
    have hlt : st.rules.length < 25 := by
      by_contra hge
      rw [ih1] at hdis
      exact of_decide_eq_false hdis (Nat.le_of_not_lt hge)
    obtain ⟨hd, hl⟩ := add_rule_ui_inv st input hlt
    exact ⟨hd, le_trans hl (le_max_right _ _)⟩
  | @remove st i hr hdis hi ih =>
    obtain ⟨ih1, ih2⟩ := ih
    have hlen : (st.rules.eraseIdx i).length + 1 = st.rules.length :=
      List.length_eraseIdx_add_one hi
    unfold remove_rule_ui
    constructor
    · apply refresh_remove_inv
      intro he
      have he2 : st.rules.eraseIdx i = [] := he
      show st.addDisabled = false
      rw [ih1]
      have h1 : st.rules.length = 1 := by
        rw [he2, List.length_nil] at hlen
        omega
      rw [h1]
      decide
    · rw [refresh_remove_rules]
      show (st.rules.eraseIdx i).length ≤ _
      have : (st.rules.eraseIdx i).length ≤ st.rules.length := by omega
      exact le_trans this ih2

theorem randchar_add_rule_invariant_witness :
    (refresh_remove_rule_select (RandcharUIState.mk [] false false [])).addDisabled
      = decide (25 ≤ (refresh_remove_rule_select
          (RandcharUIState.mk [] false false [])).rules.length) ∧
    (refresh_remove_rule_select (RandcharUIState.mk [] false false [])).rules.length
      ≤ max (RandcharUIState.mk [] false false []).rules.length 25 :=
  randchar_add_rule_invariant (RandcharUIState.mk [] false false [])
    (refresh_remove_rule_select (RandcharUIState.mk [] false false [])) rfl
    RandcharReachable.init
